import Mathlib

/-!
Verification of the VxHunter Ghidra utility
(`firmware_tools/ghidra/vxhunter_utility/symbol.py`).

The Python source is shallowly embedded: byte/character strings become
`List Char`, Python integers become `Int`/`Nat`, addresses become their
integer offsets (`Int`), and the Ghidra program database is an explicit
environment of read oracles (`GhidraEnv`) while the annotations written to
it are recorded as an explicit list of `Effect`s.  Python statements that
can raise are modelled with `Option`/sum results; a `none` result of a
partial function marks the place where the original code raises.
-/

namespace VxHunter

/-! ## Python string primitives

`pyGet s i` models the Python expression `s[i]` (negative indices wrap
around once; an index out of range raises, modelled as `none`).
`pySlice s a b` models `s[a:b]` (never raises: bounds are clamped,
negative bounds wrap). -/

def pyGet (s : List Char) (i : Int) : Option Char :=
  if 0 ≤ i then s[i.toNat]?
  else if 0 ≤ i + s.length then s[(i + s.length).toNat]?
  else none

def pyBound (n : Nat) (i : Int) : Nat :=
  if i < 0 then (i + n).toNat else min i.toNat n

def pySlice (s : List Char) (a b : Int) : List Char :=
  (s.take (pyBound s.length b)).drop (pyBound s.length a)

/-! ## Symbol-name character set and reserved type names (source lines 27-98) -/

def function_name_key_words : List (List Char) :=
  ["bzero".toList, "usrInit".toList, "bfill".toList]

def need_create_function : List Int := [0x04, 0x05]

def function_name_chaset : List Char :=
  ("abcdefghijklmnopqrstuvwxyzABCDEFGHIJKLMNOPQRSTUVWXYZ"
    ++ "0123456789" ++ "_:.<>,*" ++ "()~+-=/%").toList

def ghidra_builtin_types : List (List Char) :=
  ["bool", "byte", "complex16", "complex32", "complex8", "doublecomplex", "dwfenc",
   "dword", "filetime", "float10", "float16", "float2", "float4", "float8",
   "floatcomplex", "guid", "imagebaseoffset32", "imagebaseoffset64", "int16", "int3",
   "int5", "int6", "int7", "long", "longdouble", "longdoublecomplex", "longlong",
   "mactime", "prel31", "qword", "sbyte", "schar", "sdword", "segmentedcodeaddress",
   "shiftedaddress", "sqword", "sword", "uchar", "uint", "uint16", "uint3", "uint5",
   "uint6", "uint7", "ulong", "ulonglong", "undefined", "undefined1", "undefined2",
   "undefined3", "undefined4", "undefined5", "undefined6", "undefined7", "undefined8",
   "ushort", "wchar_t", "wchar16", "wchar32", "word"].map String.toList

/-- Embedding of `check_is_func_name` (source lines 101-118): length cap of 512,
character-set membership, and rejection of reserved Ghidra builtin type names
(compared on the ASCII-lowercased string, as Python `str.lower` does). -/
def check_is_func_name (function_name : List Char) : Bool :=
  if 512 < function_name.length then false
  else if function_name.any (fun c => !(decide (c ∈ function_name_chaset))) then false
  else if decide (function_name.map Char.toLower ∈ ghidra_builtin_types) then false
  else true

/-! ## The demangled-signature parser `demangle_function` (source lines 121-181)

The Python parser walks `index` downwards from `len - 1`; the loops access
`demangle_string[index]` only under the guard `index >= 0`, so we re-encode
the loop variable as the natural number `idx1 = index + 1` and recurse
structurally on it.  Character accesses go through `pyGet` and a `none`
result (an `IndexError` in the original) aborts the whole parse. -/

/-- Embedding of the balanced-parenthesis scan of `demangle_function`
(source lines 131-143).  State: `idx1 = index + 1`, `count` the running
parenthesis depth.  Returns `idx1` at loop exit (so the Python `index` at
exit is the returned value minus one, which is the new `function_name_end`). -/
def parenScan (s : List Char) : Nat → Int → Option Nat
  | 0, _ => some 0
  | n + 1, count =>
    match pyGet s n with
    | none => none
    | some c =>
      let count' := if c = ')' then count + 1 else if c = '(' then count - 1 else count
      if count' = 0 then some n else parenScan s n count'

/-- Embedding of the function-name scan of `demangle_function`
(source lines 147-173).  State: `idx1 = index + 1` and the Python
`function_name_end` (`fne`, an `Int` because it can be `-1`).  Returns the
final `idx1`, the final `function_name_end` and the recovered name, if any. -/
def nameScan (s : List Char) : Nat → Int → Option (Nat × Int × Option (List Char))
  | 0, fne => some (0, fne, none)
  | n + 1, fne =>
    match pyGet s n with
    | none => none
    | some c =>
      if c = ' ' then
        let temp_data := pySlice s ((n : Int) + 1) (fne + 1)
        if temp_data = ['*'] then nameScan s n (n : Int)
        else if check_is_func_name temp_data then some (n + 1, fne, some temp_data)
        else nameScan s n (n : Int)
      else if n = 0 then
        match pyGet s fne with
        | none => none
        | some cf =>
          let temp_data := if cf = ' ' then pySlice s 0 fne else pySlice s 0 (fne + 1)
          some (1, fne, if check_is_func_name temp_data then some temp_data else none)
      else nameScan s n fne

/-- Embedding of `demangle_function` (source lines 121-181).  The result is
`none` exactly when the Python code raises (the only such access is
`demangle_string[-1]` on the empty string; the loop accesses are guarded),
and otherwise `some (function_return, function_name, function_parameters)`. -/
def demangle_function (demangle_string : List Char) :
    Option (Option (List Char) × Option (List Char) × List Char) :=
  match pyGet demangle_string (-1) with
  | none => none
  | some last =>
    let n := demangle_string.length
    let afterParen : Option (Nat × Int) :=
      if last = ')' then
        match parenScan demangle_string n 0 with
        | none => none
        | some idx1 => some (idx1, (idx1 : Int) - 1)
      else some (n, (n : Int) - 1)
    match afterParen with
    | none => none
    | some (idx1, fne) =>
      match nameScan demangle_string idx1 fne with
      | none => none
      | some (idx1f, fnef, function_name) =>
        let function_name_start : Int := (idx1f : Int) - 1
        let function_parameters := pySlice demangle_string (fnef + 1) demangle_string.length
        let function_return :=
          if function_name_start ≠ 0 then some (pySlice demangle_string 0 function_name_start)
          else none
        some (function_return, function_name, function_parameters)

/-! ## The symbol-file validator `is_vx_symbol_file` (source lines 334-345) -/

/-- Embedding of `struct.unpack` with format `'>I'` / `'<I'` applied to the
first four bytes: it raises (here `none`) unless given exactly four bytes,
and otherwise decodes an unsigned 32-bit integer in the requested
endianness. -/
def unpack_u32 (is_big_endian : Bool) (bytes : List Char) : Option Nat :=
  match bytes with
  | [b0, b1, b2, b3] =>
    some (if is_big_endian then
            b0.toNat * 16777216 + b1.toNat * 65536 + b2.toNat * 256 + b3.toNat
          else
            b3.toNat * 16777216 + b2.toNat * 65536 + b1.toNat * 256 + b0.toNat)
  | _ => none

/-- Embedding of `is_vx_symbol_file` (source lines 334-345): every fingerprint
substring must occur in the buffer, and then the first word, decoded in the
given endianness, is compared with the buffer length.  `none` marks the
`struct.error` raised when the buffer is shorter than four bytes (unreachable
when the fingerprints are present). -/
def is_vx_symbol_file (file_data : List Char) (is_big_endian : Bool) : Option Bool :=
  if function_name_key_words.all (fun k => decide (k <:+: file_data)) then
    match unpack_u32 is_big_endian (file_data.take 4) with
    | some v => some (v == file_data.length)
    | none => none
  else some false

/-! ## The demangler driver `demangled_symbol` (source lines 184-222)

The Ghidra demangler is an external collaborator; one call
`demangler.demangle(string, hint)` can return a truthy demangled object,
return a falsy result (`None`), or raise.  `DemRes` enumerates these
outcomes; a truthy object carries the result of its later
`getSignature(False)` call (which itself may be `None`).  The embedding
additionally records the trace of `(argument, hint)` pairs passed to the
demangler, so the order of fallback attempts is observable. -/

inductive DemRes
  | obj (sig : Option (List Char))
  | null
  | exn
deriving DecidableEq

/-- Embedding of `demangled_symbol` (source lines 184-222).  The first
`try` block performs `demangle(s, True)` and — only if that call returned
falsy without raising — `demangle(s, False)`; an exception raised by either
call aborts the whole block.  If the block left no truthy object, a second
`try` block performs `demangle(s[1:], False)`.  Returns the
`getSignature(False)` value of the truthy object (if any) together with the
trace of demangler calls made. -/
def demangled_symbol (oracle : List Char → Bool → DemRes) (can_demangle : Bool)
    (symbol_string : List Char) : Option (List Char) × List (List Char × Bool) :=
  if can_demangle then
    let block1 : Option (Option (List Char)) × List (List Char × Bool) :=
      match oracle symbol_string true with
      | .obj sig => (some sig, [(symbol_string, true)])
      | .null =>
        match oracle symbol_string false with
        | .obj sig => (some sig, [(symbol_string, true), (symbol_string, false)])
        | _ => (none, [(symbol_string, true), (symbol_string, false)])
      | .exn => (none, [(symbol_string, true)])
    let block2 : Option (Option (List Char)) × List (List Char × Bool) :=
      match block1.1 with
      | some sig => (some sig, block1.2)
      | none =>
        match oracle (symbol_string.drop 1) false with
        | .obj sig => (some sig, block1.2 ++ [(symbol_string.drop 1, false)])
        | _ => (none, block1.2 ++ [(symbol_string.drop 1, false)])
    match block2.1 with
    | some sig => (sig, block2.2)
    | none => (none, block2.2)
  else (none, [])

/-- Modelled from the spec: the claimed fallback order of `demangled_symbol`,
in which a demangler failure (exception) at any stage is treated exactly like
that stage yielding no result, so `demangle(s, True)` is always followed by
`demangle(s, False)` whenever it produced no truthy object, and that by
`demangle(s[1:], False)` likewise. -/
def demangled_symbol_claimed (oracle : List Char → Bool → DemRes) (can_demangle : Bool)
    (symbol_string : List Char) : Option (List Char) × List (List Char × Bool) :=
  if can_demangle then
    match oracle symbol_string true with
    | .obj sig => (sig, [(symbol_string, true)])
    | _ =>
      match oracle symbol_string false with
      | .obj sig => (sig, [(symbol_string, true), (symbol_string, false)])
      | _ =>
        match oracle (symbol_string.drop 1) false with
        | .obj sig =>
          (sig, [(symbol_string, true), (symbol_string, false), (symbol_string.drop 1, false)])
        | _ =>
          (none, [(symbol_string, true), (symbol_string, false), (symbol_string.drop 1, false)])
  else (none, [])

/-- Restatement of the behaviour of `demangled_symbol` in the amended
claim's terms: `demangle(s, True)` first; `demangle(s, False)` only when the
first call returned a falsy result without raising; `demangle(s[1:], False)`
whenever the first block produced no truthy object (also when an exception
occurred at either of its calls); exceptions never propagate. -/
def demangled_symbol_amended (oracle : List Char → Bool → DemRes) (can_demangle : Bool)
    (symbol_string : List Char) : Option (List Char) × List (List Char × Bool) :=
  if can_demangle then
    let firstBlock : Option (Option (List Char)) × List (List Char × Bool) :=
      match oracle symbol_string true with
      | .obj sig => (some sig, [(symbol_string, true)])
      | .exn => (none, [(symbol_string, true)])
      | .null =>
        match oracle symbol_string false with
        | .obj sig => (some sig, [(symbol_string, true), (symbol_string, false)])
        | _ => (none, [(symbol_string, true), (symbol_string, false)])
    match firstBlock.1 with
    | some sig => (sig, firstBlock.2)
    | none =>
      match oracle (symbol_string.drop 1) false with
      | .obj sig => (sig, firstBlock.2 ++ [(symbol_string.drop 1, false)])
      | _ => (none, firstBlock.2 ++ [(symbol_string.drop 1, false)])
  else (none, [])

/-- Oracle exhibiting the divergence for C4: the hinted first call raises,
while the unhinted call on the same string would succeed. -/
def oracleC4 : List Char → Bool → DemRes := fun t hint =>
  if hint then DemRes.exn
  else if t = ['x'] then DemRes.obj (some ['A'])
  else DemRes.null

/-! ## The symbol materializer `add_symbol` (source lines 225-302)

`add_symbol` drives the Ghidra program database.  Reads from the database
are answered by a `GhidraEnv` of oracles; the annotations written are
recorded in order as a list of `Effect`s.  `createAsciiString` can return a
string value, raise a `CodeUnitInsertionException`, or raise some other
exception; `AsciiRes` enumerates these outcomes. -/

inductive AsciiRes
  | ok (value : List Char)
  | conflict
  | err
deriving DecidableEq

/-- Data-structure descriptors from the (absent) `vx_structs` module that the
walkers place into the program database. -/
inductive VxStruct
  | clBuff
  | clPool
  | netPool
  | poolStat
  | poolFuncTbl
  | windTcb
deriving DecidableEq

inductive Effect
  | removeDataAt (a : Int)
  | createdAscii (a : Int)
  | removeInstructionAt (a : Int)
  | disassemble (a : Int)
  | createFunction (a : Int) (name : List Char)
  | setFunctionName (a : Int) (name : List Char)
  | createLabel (a : Int) (name : List Char)
  | setPlateComment (a : Int) (text : List Char)
  | createStruct (a : Int) (ty : VxStruct)
deriving DecidableEq

/-- Read-side interface of the Ghidra program database (and of the external
demangler), as consumed by the embedded code.  `createFunctionOk a` tells
whether `createFunction` at address `a` returns a function or `None`;
`getCodeUnitAt` after a successful `createFunction` at the same address is
modelled as always succeeding.  `clTblSize` and `poolFuncNames` stand for
the `VX_5_CL_TBL_SIZE` constant and the keys of `vx_5_pool_func_dict` from
the (absent) `vx_structs` module. -/
structure GhidraEnv where
  getDataAt : Int → Bool
  createAsciiString : Int → AsciiRes
  getInstructionAt : Int → Bool
  demOracle : List Char → Bool → DemRes
  canDemangle : Bool
  createFunctionOk : Int → Bool
  getInt : Int → Int
  inProgram : Int → Bool
  getDataValue : Int → Option (List Char)
  getFunctionAt : Int → Option (List Char)
  poolFuncNames : List (List Char)
  clTblSize : Nat

/-- Python truthiness of an optional string: `None` and the empty string are
falsy. -/
def pyTruthy (o : Option (List Char)) : Bool :=
  match o with
  | some l => !l.isEmpty
  | none => false

/-- Embedding of the name-materialization step of `add_symbol` (source lines
229-247).  Returns the effects performed so far and `some name_string` to
continue with, or `none` when the code hits the `return` in the
`BaseException` handler.  A zero `symbol_name_address` is falsy in Python,
so the whole step is skipped for it. -/
def add_symbol_name_step (env : GhidraEnv) (symbol_name : List Char)
    (symbol_name_address : Int) : List Effect × Option (List Char) :=
  if symbol_name_address ≠ 0 then
    let e1 : List Effect :=
      if env.getDataAt symbol_name_address then [.removeDataAt symbol_name_address] else []
    match env.createAsciiString symbol_name_address with
    | .ok v => (e1 ++ [.createdAscii symbol_name_address], some v)
    | .conflict => (e1, some symbol_name)
    | .err => (e1, none)
  else ([], some symbol_name)

/-- Embedding of `add_symbol` (source lines 225-302), returning the ordered
list of effects issued against the program database.  The outer
`except Exception` handler makes every raise inside the main block abort the
remaining statements without propagating; the only such raise reachable in
the model is `demangle_function` on an empty signature, which the truthiness
guard on `sym_demangled_name` already excludes. -/
def add_symbol (env : GhidraEnv) (symbol_name : List Char) (symbol_name_address : Int)
    (symbol_address : Int) (symbol_type : Int) : List Effect :=
  match add_symbol_name_step env symbol_name symbol_name_address with
  | (e, none) => e
  | (e, some symbol_name_string) =>
    let e := e ++ (if env.getInstructionAt symbol_address
                   then [.removeInstructionAt symbol_address] else [])
    let sym_demangled_name := (demangled_symbol env.demOracle env.canDemangle
      symbol_name_string).1
    let main : List Effect :=
      if symbol_name_string ≠ [] ∧ symbol_type ∈ need_create_function then
        let e2 : List Effect := [.disassemble symbol_address]
        if env.createFunctionOk symbol_address then
          let e3 := e2 ++ [.createFunction symbol_address symbol_name_string,
                           .setFunctionName symbol_address symbol_name_string]
          match sym_demangled_name with
          | some dname =>
            if dname.isEmpty then e3
            else
              let e4 := e3 ++ [.setPlateComment symbol_address dname]
              match demangle_function dname with
              | none => e4
              | some (_, function_name, _) =>
                let e5 := e4 ++ (match function_name with
                  | some fn => [Effect.setFunctionName symbol_address fn]
                  | none => [])
                e5 ++ [.createLabel symbol_address symbol_name_string]
          | none => e3
        else e2 ++ [.createLabel symbol_address symbol_name_string]
      else
        [Effect.createLabel symbol_address symbol_name_string] ++
          (match sym_demangled_name with
           | some dname =>
             if dname.isEmpty then [] else [Effect.setPlateComment symbol_address dname]
           | none => [])
    e ++ main

/-- Environment for the C2 counterexample: function creation succeeds and
the demangler yields nothing. -/
def envC2 : GhidraEnv where
  getDataAt := fun _ => false
  createAsciiString := fun _ => AsciiRes.err
  getInstructionAt := fun _ => false
  demOracle := fun _ _ => DemRes.null
  canDemangle := true
  createFunctionOk := fun _ => true
  getInt := fun _ => 0
  inProgram := fun _ => false
  getDataValue := fun _ => none
  getFunctionAt := fun _ => none
  poolFuncNames := []
  clTblSize := 0

/-- Environment for the C3 counterexample: `createAsciiString` raises a
`CodeUnitInsertionException`. -/
def envC3 : GhidraEnv where
  getDataAt := fun _ => false
  createAsciiString := fun _ => AsciiRes.conflict
  getInstructionAt := fun _ => false
  demOracle := fun _ _ => DemRes.null
  canDemangle := true
  createFunctionOk := fun _ => false
  getInt := fun _ => 0
  inProgram := fun _ => false
  getDataValue := fun _ => none
  getFunctionAt := fun _ => none
  poolFuncNames := []
  clTblSize := 0

/-- Environment for the C2 amended-claim witness: as `envC2` but the
demangler succeeds with a demanglable signature. -/
def envC2W : GhidraEnv :=
  { envC2 with demOracle := fun _ _ => DemRes.obj (some ("int f()".toList)) }

/-- Environment for the C3 amended-claim witness: `createAsciiString` raises
an exception other than `CodeUnitInsertionException`. -/
def envC3err : GhidraEnv :=
  { envC3 with createAsciiString := fun _ => AsciiRes.err }

/-! ## Kernel object walkers (source lines 392-545)

The walkers read pointers through `GhidraEnv.getInt`, guard addresses with
`GhidraEnv.inProgram` (`is_address_in_current_program`) and place typed
structures via `create_struct`.  The `while True` loop of
`fix_cl_buff_chain` is a genuinely partial pointer chase, so it is embedded
with an explicit fuel parameter together with a flag telling whether the
loop reached one of its `return` statements within that fuel; the
termination claims are then statements that some concrete fuel suffices. -/

structure ClPoolInfo where
  cl_pool_addr : Int
  cl_pool_size : Option Int
  cl_pool_num : Option Int
  cl_pool_num_free : Option Int
  cl_pool_usage : Option Int
  cl_head_addr : Option Int
deriving DecidableEq

structure NetPoolInfo where
  pool_addr : Int
  pool_table_addr : Option Int
  pool_status_addr : Option Int
  pool_func_tbl_addr : Option Int
  cl_pool_info : List ClPoolInfo
deriving DecidableEq

structure TcbInfo where
  tcb_addr : Int
  task_name : Option (List Char)
  task_entry_addr : Option Int
  task_entry_name : Option (List Char)
  task_stack_base : Option Int
  task_stack_limit : Option Int
  task_stack_limit_end : Option Int
deriving DecidableEq

/-- Embedding of `create_struct` (source lines 392-405): outside the known
address space nothing happens; otherwise the removal of covered data items
and the `createData` attempt are summarized as one `createStruct` effect. -/
def create_struct (env : GhidraEnv) (data_address : Int) (data_struct : VxStruct) :
    List Effect :=
  if env.inProgram data_address then [.createStruct data_address data_struct] else []

/-- Embedding of the `while True` loop of `fix_cl_buff_chain` (source lines
414-422): type the current node while it is inside the program, follow its
forward link, stop on leaving the address space or on returning to the
starting address.  The boolean is true when a `return` was reached within
the given fuel. -/
def clBuffWalk (env : GhidraEnv) (cl_buff_addr : Int) : Nat → Int → List Effect × Bool
  | 0, _ => ([], false)
  | fuel + 1, cur =>
    if env.inProgram cur then
      let e := create_struct env cur .clBuff
      let nxt := env.getInt cur
      if nxt = cl_buff_addr then (e, true)
      else
        let r := clBuffWalk env cl_buff_addr fuel nxt
        (e ++ r.1, r.2)
    else ([], true)

/-- Embedding of `fix_cl_buff_chain` (source lines 408-422).  For versions
other than 5 (and for a zero start address) the function returns at once
with no effect. -/
def fix_cl_buff_chain (env : GhidraEnv) (fuel : Nat) (vx_version : Nat)
    (cl_buff_addr : Int) : List Effect × Bool :=
  if vx_version = 5 then
    if cl_buff_addr = 0 then ([], true)
    else clBuffWalk env cl_buff_addr fuel cl_buff_addr
  else ([], true)

/-- Embedding of `fix_clpool` (source lines 425-448): for version 5 and a
nonzero in-program address it types the pool descriptor, reads the counters
at fixed offsets, walks the buffer chain from the head pointer and returns
the populated record; otherwise it returns `None`. -/
def fix_clpool (env : GhidraEnv) (fuel : Nat) (vx_version : Nat) (clpool_addr : Int) :
    List Effect × Option ClPoolInfo :=
  if vx_version = 5 then
    if clpool_addr = 0 then ([], none)
    else if env.inProgram clpool_addr then
      let e1 := create_struct env clpool_addr .clPool
      let cl_head_addr := env.getInt (clpool_addr + 0x14)
      let info : ClPoolInfo :=
        { cl_pool_addr := clpool_addr
          cl_pool_size := some (env.getInt (clpool_addr + 0x00))
          cl_pool_num := some (env.getInt (clpool_addr + 0x08))
          cl_pool_num_free := some (env.getInt (clpool_addr + 0x0c))
          cl_pool_usage := some (env.getInt (clpool_addr + 0x10))
          cl_head_addr := some cl_head_addr }
      let r := fix_cl_buff_chain env fuel 5 cl_head_addr
      (e1 ++ r.1, some info)
    else ([], none)
  else ([], none)

/-- Embedding of the slot loop of `fix_pool_func_tbl` (source lines 459-473)
over the well-known pool function names. -/
def poolFuncSlots (env : GhidraEnv) (pool_func_addr : Int) :
    List (List Char) → Int → List Effect
  | [], _ => []
  | func_name :: rest, func_offset =>
    let func_addr := env.getInt (pool_func_addr + func_offset)
    let e :=
      if env.inProgram func_addr then
        [Effect.disassemble func_addr] ++
          (if env.createFunctionOk func_addr then
            [Effect.createFunction func_addr func_name,
              Effect.setFunctionName func_addr func_name]
          else [Effect.createLabel func_addr func_name])
      else []
    e ++ poolFuncSlots env pool_func_addr rest (func_offset + 4)

/-- Embedding of `fix_pool_func_tbl` (source lines 451-473); the redundant
in-program guard around `create_struct` coincides with the guard inside
`create_struct` itself. -/
def fix_pool_func_tbl (env : GhidraEnv) (vx_version : Nat) (pool_func_addr : Int) :
    List Effect :=
  if vx_version = 5 then
    if pool_func_addr = 0 then []
    else create_struct env pool_func_addr .poolFuncTbl ++
      poolFuncSlots env pool_func_addr env.poolFuncNames 0
  else []

/-- Embedding of the cluster-pool-table loop of `fix_netpool` (source lines
496-501): iterate the remaining slot count, reading one pointer per slot. -/
def netpoolLoop (env : GhidraEnv) (fuel : Nat) (pool_table_addr : Int) :
    Nat → Nat → List Effect × List ClPoolInfo
  | 0, _ => ([], [])
  | n + 1, i =>
    let cl_pool_addr := env.getInt (pool_table_addr + 4 * (i : Int))
    let r := fix_clpool env fuel 5 cl_pool_addr
    let rest := netpoolLoop env fuel pool_table_addr n (i + 1)
    (r.1 ++ rest.1, (match r.2 with | some x => [x] | none => []) ++ rest.2)

/-- Embedding of `fix_netpool` (source lines 476-506).  Note line 491 of the
source stores `pool_table_addr.getOffset()` — not the pool-status address
read at offset 0x50 — into the `pool_status_addr` field.  The record (the
Python dict) is returned unconditionally, so for versions 6 and 7 the result
is the skeleton record with only `pool_addr` set. -/
def fix_netpool (env : GhidraEnv) (fuel : Nat) (vx_version : Nat) (netpool_addr : Int) :
    List Effect × Option NetPoolInfo :=
  if vx_version = 5 then
    let e0 := create_struct env netpool_addr .netPool
    let pool_table_addr := netpool_addr + 0x24
    let pool_status_addr := env.getInt (netpool_addr + 0x50)
    let pool_function_tbl_addr := env.getInt (netpool_addr + 0x54)
    let loop := netpoolLoop env fuel pool_table_addr env.clTblSize 0
    let eStat := create_struct env pool_status_addr .poolStat
    let eFunc := fix_pool_func_tbl env 5 pool_function_tbl_addr
    (e0 ++ loop.1 ++ eStat ++ eFunc,
      some { pool_addr := netpool_addr
             pool_table_addr := some pool_table_addr
             pool_status_addr := some pool_table_addr
             pool_func_tbl_addr := some pool_function_tbl_addr
             cl_pool_info := loop.2 })
  else
    ([], some { pool_addr := netpool_addr
                pool_table_addr := none
                pool_status_addr := none
                pool_func_tbl_addr := none
                cl_pool_info := [] })

/-- Embedding of `fix_tcb` (source lines 509-545): for version 5 it types the
TCB record and reads the task-name, entry-point and stack-boundary pointers
at fixed offsets; for other versions it falls off the end, returning
`None`. -/
def fix_tcb (env : GhidraEnv) (vx_version : Nat) (tcb_addr : Int) :
    List Effect × Option TcbInfo :=
  if vx_version = 5 then
    let e := create_struct env tcb_addr .windTcb
    let task_name_addr := env.getInt (tcb_addr + 0x34)
    let task_entry_addr := env.getInt (tcb_addr + 0x74)
    (e, some { tcb_addr := tcb_addr
               task_name := env.getDataValue task_name_addr
               task_entry_addr := some task_entry_addr
               task_entry_name := env.getFunctionAt task_entry_addr
               task_stack_base := some (env.getInt (tcb_addr + 0x78))
               task_stack_limit := some (env.getInt (tcb_addr + 0x7c))
               task_stack_limit_end := some (env.getInt (tcb_addr + 0x80)) })
  else ([], none)

/-- Addresses at which a walk placed a typed structure. -/
def typedAddrs (l : List Effect) : List Int :=
  l.filterMap (fun e => match e with | .createStruct a _ => some a | _ => none)

/-- Trivial environment used to evaluate the walkers at concrete inputs. -/
def envTriv : GhidraEnv where
  getDataAt := fun _ => false
  createAsciiString := fun _ => AsciiRes.err
  getInstructionAt := fun _ => false
  demOracle := fun _ _ => DemRes.null
  canDemangle := false
  createFunctionOk := fun _ => false
  getInt := fun _ => 0
  inProgram := fun _ => false
  getDataValue := fun _ => none
  getFunctionAt := fun _ => none
  poolFuncNames := []
  clTblSize := 0

/-- Environment exhibiting a single self-referencing cluster buffer at
address 100. -/
def envC8 : GhidraEnv :=
  { envTriv with
      getInt := fun _ => 100
      inProgram := fun a => a == 100 }

example : check_is_func_name ("getData".toList) = true := by decide

example : check_is_func_name ("DWORD".toList) = false := by decide

example : demangle_function ("char* getData()".toList) =
    some (some ("char*".toList), some ("getData".toList), "()".toList) := by decide

example : demangle_function ("int main".toList) =
    some (some ("int".toList), some ("main".toList), "".toList) := by decide

example : demangle_function ("void Foo::Bar(int, char*)".toList) =
    some (some ("void".toList), some ("Foo::Bar".toList), "(int, char*)".toList) := by decide

example : demangle_function ([] : List Char) = none := by decide

/-! ## Claim theorems -/

lemma take_four_of_le (l : List Char) (h : 4 ≤ l.length) :
    ∃ a b c d, l.take 4 = [a, b, c, d] := by
  match l, h with
  | a :: b :: c :: d :: rest, _ => exact ⟨a, b, c, d, rfl⟩

/-- C4 (counterexample): with a demangler whose hinted call
`demangle("x", True)` raises and whose unhinted call `demangle("x", False)`
would succeed, `demangled_symbol` never attempts the unhinted call on the
full string and yields no result, while the claimed fallback order (exception
treated as "no result at that stage") would attempt it and succeed — so the
claim is false at this input. -/
theorem demangled_symbol_order_counterexample :
    demangled_symbol oracleC4 true ['x'] = (none, [(['x'], true), ([], false)]) ∧
      demangled_symbol_claimed oracleC4 true ['x'] =
        (some ['A'], [(['x'], true), (['x'], false)]) := by
  decide

/-- C4 (amended): `demangled_symbol` attempts `demangle(s, True)` first;
`demangle(s, False)` is attempted only when the first call returned no result
without raising; `demangle(s[1:], False)` is attempted whenever the first
try-block produced no result — including when an exception occurred at either
of its calls, in which case `demangle(s, False)` is skipped; a demangler
failure at any stage is caught and never propagated to the caller. -/
theorem demangled_symbol_order_amended (oracle : List Char → Bool → DemRes)
    (can_demangle : Bool) (s : List Char) :
    demangled_symbol oracle can_demangle s = demangled_symbol_amended oracle can_demangle s := by
  cases can_demangle with
  | false => rfl
  | true =>
    cases h1 : oracle s true with
    | obj sig => simp [demangled_symbol, demangled_symbol_amended, h1]
    | null =>
      cases h2 : oracle s false with
      | obj sig => simp [demangled_symbol, demangled_symbol_amended, h1, h2]
      | null =>
        cases h3 : oracle (s.drop 1) false <;>
          (rw [List.drop_one] at h3
           simp [demangled_symbol, demangled_symbol_amended, h1, h2, h3])
      | exn =>
        cases h3 : oracle (s.drop 1) false <;>
          (rw [List.drop_one] at h3
           simp [demangled_symbol, demangled_symbol_amended, h1, h2, h3])
    | exn =>
      cases h3 : oracle (s.drop 1) false <;>
        (rw [List.drop_one] at h3
         simp [demangled_symbol, demangled_symbol_amended, h1, h3])

/-- C1: `is_vx_symbol_file(buffer, is_big_endian)` returns true iff the buffer
contains all three fingerprint substrings and its first 4 bytes, decoded as an
unsigned 32-bit integer in the given endianness, equal the buffer length; if
any fingerprint substring is absent it returns false regardless of the
length-prefix field. -/
theorem is_vx_symbol_file_spec (file_data : List Char) (is_big_endian : Bool) :
    (is_vx_symbol_file file_data is_big_endian = some true ↔
      ((∀ k ∈ function_name_key_words, k <:+: file_data) ∧
        unpack_u32 is_big_endian (file_data.take 4) = some file_data.length)) ∧
    ((¬ ∀ k ∈ function_name_key_words, k <:+: file_data) →
      is_vx_symbol_file file_data is_big_endian = some false) := by
  by_cases hall : ∀ k ∈ function_name_key_words, k <:+: file_data
  · have hcond : function_name_key_words.all (fun k => decide (k <:+: file_data)) = true := by
      rw [List.all_eq_true]
      intro k hk
      simpa using hall k hk
    have hlen : 4 ≤ file_data.length := by
      have h7 : ("usrInit".toList) <:+: file_data := hall _ (by simp [function_name_key_words])
      have h7le : (7 : Nat) ≤ file_data.length := by simpa using h7.length_le
      omega
    obtain ⟨a, b, c, d, htake⟩ := take_four_of_le file_data hlen
    refine ⟨?_, fun hcontra => absurd hall hcontra⟩
    rw [is_vx_symbol_file, if_pos hcond, htake]
    simp only [unpack_u32, Option.some.injEq, beq_iff_eq]
    exact ⟨fun h => ⟨hall, h⟩, fun h => h.2⟩
  · have hcond : function_name_key_words.all (fun k => decide (k <:+: file_data)) = false := by
      rw [List.all_eq_false]
      push_neg at hall
      obtain ⟨k, hk, hnk⟩ := hall
      exact ⟨k, hk, by simpa using hnk⟩
    refine ⟨?_, fun _ => ?_⟩
    · rw [is_vx_symbol_file, if_neg (by simp [hcond])]
      refine ⟨fun h => absurd h (by simp), ?_⟩
      rintro ⟨h, -⟩
      exact absurd h hall
    · rw [is_vx_symbol_file, if_neg (by simp [hcond])]

lemma pyGet_nat_eq (s : List Char) (n : Nat) (h : n < s.length) :
    pyGet s (n : Int) = some s[n] := by
  rw [pyGet, if_pos (by omega)]
  simp [List.getElem?_eq_getElem h]

lemma parenScan_isSome (s : List Char) :
    ∀ (idx1 : Nat) (count : Int), idx1 ≤ s.length → (parenScan s idx1 count).isSome := by
  intro idx1
  induction idx1 with
  | zero => intro count _; simp [parenScan]
  | succ n ih =>
    intro count h
    have hn : n < s.length := by omega
    rw [parenScan, pyGet_nat_eq s n hn]
    dsimp only
    generalize (if s[n] = ')' then count + 1 else if s[n] = '(' then count - 1 else count) = c'
    split
    · simp
    · exact ih _ (by omega)

lemma parenScan_le (s : List Char) :
    ∀ (idx1 : Nat) (count : Int) (j : Nat), parenScan s idx1 count = some j → j ≤ idx1 := by
  intro idx1
  induction idx1 with
  | zero =>
    intro count j hj
    simp only [parenScan, Option.some.injEq] at hj
    omega
  | succ n ih =>
    intro count j hj
    rw [parenScan] at hj
    rcases hg : pyGet s (n : Int) with - | c
    · rw [hg] at hj; exact absurd hj (by simp)
    · rw [hg] at hj
      dsimp only at hj
      generalize (if c = ')' then count + 1 else if c = '(' then count - 1 else count) = c' at hj
      split at hj
      · simp only [Option.some.injEq] at hj; omega
      · exact le_trans (ih _ j hj) (by omega)

lemma nameScan_isSome (s : List Char) :
    ∀ (idx1 : Nat) (fne : Int), idx1 ≤ s.length → (idx1 : Int) - 1 ≤ fne →
      fne < (s.length : Int) → (nameScan s idx1 fne).isSome := by
  intro idx1
  induction idx1 with
  | zero => intro fne _ _ _; simp [nameScan]
  | succ n ih =>
    intro fne h hfne hflt
    have hn : n < s.length := by omega
    rw [nameScan, pyGet_nat_eq s n hn]
    dsimp only
    split
    · split
      · exact ih (n : Int) (by omega) (by omega) (by omega)
      · split
        · simp
        · exact ih (n : Int) (by omega) (by omega) (by omega)
    · split
      · have hWithin : fne.toNat < s.length := by omega
        have hpg : pyGet s fne = some s[fne.toNat] := by
          have hres := pyGet_nat_eq s fne.toNat hWithin
          rwa [show ((fne.toNat : Nat) : Int) = fne from by omega] at hres
        rw [hpg]
        simp
      · exact ih fne (by omega) (by omega) hflt

lemma demangle_function_total (s : List Char) (h : s ≠ []) :
    ∃ r, demangle_function s = some r := by
  have hlen : 0 < s.length := List.length_pos.mpr h
  have hm1 : pyGet s (-1) = s[s.length - 1]? := by
    rw [pyGet, if_neg (by omega), if_pos (by omega)]
    congr 1
    omega
  have h1 : (pyGet s (-1)).isSome := by
    rw [hm1, List.getElem?_eq_getElem (by omega)]
    rfl
  obtain ⟨last, hlast⟩ := Option.isSome_iff_exists.mp h1
  simp only [demangle_function, hlast]
  by_cases hp : last = ')'
  · obtain ⟨idx1, hidx⟩ := Option.isSome_iff_exists.mp (parenScan_isSome s s.length 0 le_rfl)
    have hle := parenScan_le s s.length 0 idx1 hidx
    obtain ⟨⟨i2, f2, nm⟩, hns⟩ := Option.isSome_iff_exists.mp
      (nameScan_isSome s idx1 ((idx1 : Int) - 1) hle (by omega) (by omega))
    rw [if_pos hp, hidx]
    dsimp only
    rw [hns]
    exact ⟨_, rfl⟩
  · obtain ⟨⟨i2, f2, nm⟩, hns⟩ := Option.isSome_iff_exists.mp
      (nameScan_isSome s s.length ((s.length : Int) - 1) le_rfl (by omega) (by omega))
    rw [if_neg hp]
    dsimp only
    rw [hns]
    exact ⟨_, rfl⟩

/-- C5 (counterexample): on the empty input string the parser raises an
IndexError at the access `demangle_string[-1]` (modelled as `none`), so it
does not return a triple — the claim fails for the empty string. -/
theorem demangle_function_empty_raises : demangle_function ([] : List Char) = none := by
  decide

/-- C5 (amended): for every nonempty input string, including strings with
unbalanced parentheses, `demangle_function` returns a triple without any
out-of-bounds string access (all scanning stops at position 0 regardless of
parenthesis depth closure); the parameters component of the result is a
defined string (possibly empty) while return type and name may each be
absent. -/
theorem demangle_function_total_nonempty (s : List Char) (h : s ≠ []) :
    ∃ function_return function_name function_parameters,
      demangle_function s = some (function_return, function_name, function_parameters) := by
  obtain ⟨⟨r, nm, p⟩, hr⟩ := demangle_function_total s h
  exact ⟨r, nm, p, hr⟩

theorem demangle_function_total_nonempty_witness :
    ("int main".toList ≠ ([] : List Char)) ∧
      ∃ function_return function_name function_parameters,
        demangle_function ("int main".toList) =
          some (function_return, function_name, function_parameters) :=
  ⟨by decide, demangle_function_total_nonempty ("int main".toList) (by decide)⟩

/-- C7: `demangle_function` applied to the exact string "char* getData()"
yields name "getData", return type "char*" (including the pointer marker),
and parameters "()". -/
theorem demangle_function_char_ptr_getData :
    demangle_function ("char* getData()".toList) =
      some (some ("char*".toList), some ("getData".toList), "()".toList) := by
  decide

/-- C6: `check_is_func_name(s)` returns true iff `s` has length at most 512,
every character of `s` belongs to the identifier character set, and the
lowercase form of `s` is not a reserved builtin type name. -/
theorem check_is_func_name_spec (s : List Char) :
    check_is_func_name s = true ↔
      s.length ≤ 512 ∧ (∀ c ∈ s, c ∈ function_name_chaset) ∧
        s.map Char.toLower ∉ ghidra_builtin_types := by
  unfold check_is_func_name
  split_ifs with h1 h2 h3
  · simp only [false_iff]
    rintro ⟨ha, -, -⟩
    omega
  · simp only [false_iff]
    rintro ⟨-, hb, -⟩
    rw [List.any_eq_true] at h2
    obtain ⟨c, hc, hcc⟩ := h2
    simp only [Bool.not_eq_true', decide_eq_false_iff_not] at hcc
    exact hcc (hb c hc)
  · simp only [false_iff]
    rintro ⟨-, -, hc⟩
    simp only [decide_eq_true_eq] at h3
    exact hc h3
  · simp only [true_iff]
    refine ⟨by omega, ?_, ?_⟩
    · intro c hc
      by_contra hn
      have : s.any (fun c => !(decide (c ∈ function_name_chaset))) = true :=
        List.any_eq_true.mpr ⟨c, hc, by simp [hn]⟩
      exact h2 this
    · intro hmem
      exact h3 (by simpa using hmem)

lemma name_step_no_label (env : GhidraEnv) (symbol_name : List Char)
    (symbol_name_address a : Int) (lbl : List Char) :
    Effect.createLabel a lbl ∉ (add_symbol_name_step env symbol_name symbol_name_address).1 := by
  rw [add_symbol_name_step]
  by_cases h : symbol_name_address ≠ 0
  · rw [if_pos h]
    cases henv : env.createAsciiString symbol_name_address <;> split <;> simp
  · rw [if_neg h]
    simp

/-- C2 (counterexample): a function-type symbol whose function creation
succeeds but whose name has no demangled form: `add_symbol` issues only
disassemble, create-function and set-name effects, and no label carrying the
original symbol name is created at the destination address. -/
theorem add_symbol_no_label_counterexample :
    add_symbol envC2 ("foo".toList) 0 100 4 =
      [Effect.disassemble 100, Effect.createFunction 100 ("foo".toList),
        Effect.setFunctionName 100 ("foo".toList)] ∧
      Effect.createLabel 100 ("foo".toList) ∉ add_symbol envC2 ("foo".toList) 0 100 4 := by
  decide

/-- C2 (amended): for every function-type symbol (type tag in 0x04/0x05) with
a truthy materialized name for which `add_symbol` successfully creates a
function at the destination address, a label carrying the original (possibly
mangled) symbol name is created at that address if and only if a truthy
demangled form was obtained; when demangling yields nothing, no such label is
created. -/
theorem add_symbol_function_label_iff_demangled (env : GhidraEnv) (symbol_name : List Char)
    (symbol_name_address symbol_address : Int) (symbol_type : Int) (s : List Char)
    (hname : (add_symbol_name_step env symbol_name symbol_name_address).2 = some s)
    (hs : s ≠ [])
    (hty : symbol_type ∈ need_create_function)
    (hfn : env.createFunctionOk symbol_address = true) :
    (Effect.createLabel symbol_address s ∈
        add_symbol env symbol_name symbol_name_address symbol_address symbol_type) ↔
      pyTruthy (demangled_symbol env.demOracle env.canDemangle s).1 = true := by
  have hp : add_symbol_name_step env symbol_name symbol_name_address =
      ((add_symbol_name_step env symbol_name symbol_name_address).1, some s) := by
    rw [← hname]
  have hnl := name_step_no_label env symbol_name symbol_name_address symbol_address s
  have hcond : ¬s = [] ∧ symbol_type ∈ need_create_function := ⟨hs, hty⟩
  rw [add_symbol, hp]
  dsimp only
  rw [if_pos hcond, if_pos hfn]
  rcases hd : (demangled_symbol env.demOracle env.canDemangle s).1 with - | d
  · simp [pyTruthy, List.mem_append, hnl]
  · rcases he : d.isEmpty with - | -
    · have hdne : d ≠ [] := by
        intro hcon
        rw [hcon] at he
        exact absurd he (by simp)
      obtain ⟨⟨r, nmo, pp⟩, hdf⟩ := demangle_function_total d hdne
      cases nmo <;> simp [pyTruthy, he, hdf, hnl, List.mem_append]
    · simp [pyTruthy, he, hnl, List.mem_append]

theorem add_symbol_function_label_iff_demangled_witness :
    ((add_symbol_name_step envC2W ("foo".toList) 0).2 = some ("foo".toList)) ∧
      (Effect.createLabel 100 ("foo".toList) ∈ add_symbol envC2W ("foo".toList) 0 100 4 ↔
        pyTruthy (demangled_symbol envC2W.demOracle envC2W.canDemangle ("foo".toList)).1 =
          true) :=
  ⟨by decide,
    add_symbol_function_label_iff_demangled envC2W ("foo".toList) 0 100 4 ("foo".toList)
      (by decide) (by decide) (by decide) (by decide)⟩

/-- C3 (counterexample): when materializing the ASCII name string raises a
`CodeUnitInsertionException`, `add_symbol` does not abort: it continues with
the original raw name and still creates a label at the destination address,
contradicting the claim that no record is created after any
create-ascii-string failure. -/
theorem add_symbol_ascii_conflict_counterexample :
    envC3.createAsciiString 50 = AsciiRes.conflict ∧
      Effect.createLabel 100 ("bar".toList) ∈ add_symbol envC3 ("bar".toList) 50 100 0 := by
  decide

/-- C3 (amended): when the create-ascii-string primitive raises an exception
other than a `CodeUnitInsertionException`, `add_symbol` aborts processing of
the symbol — apart from the possible removal of pre-existing data at the name
address, no effect (in particular no function, label, or comment) is issued,
and the failure does not propagate; when it raises a
`CodeUnitInsertionException`, the failure is logged and processing continues
with the original raw symbol name. -/
theorem add_symbol_ascii_err_aborts (env : GhidraEnv) (symbol_name : List Char)
    (symbol_name_address symbol_address : Int) (symbol_type : Int)
    (hna : symbol_name_address ≠ 0) :
    (env.createAsciiString symbol_name_address = AsciiRes.err →
      add_symbol env symbol_name symbol_name_address symbol_address symbol_type =
        (if env.getDataAt symbol_name_address
         then [Effect.removeDataAt symbol_name_address] else [])) ∧
    (env.createAsciiString symbol_name_address = AsciiRes.conflict →
      (add_symbol_name_step env symbol_name symbol_name_address).2 = some symbol_name) := by
  constructor
  · intro herr
    rw [add_symbol, add_symbol_name_step, if_pos hna, herr]
  · intro hconf
    rw [add_symbol_name_step, if_pos hna, hconf]

theorem add_symbol_ascii_err_aborts_witness :
    ((50 : Int) ≠ 0) ∧
      add_symbol envC3err ("bar".toList) 50 100 0 =
        (if envC3err.getDataAt 50 then [Effect.removeDataAt 50] else []) :=
  ⟨by decide,
    (add_symbol_ascii_err_aborts envC3err ("bar".toList) 50 100 0 (by decide)).1 rfl⟩

lemma typedAddrs_map_createStruct (l : List Int) (t : VxStruct) :
    typedAddrs (l.map (fun a => Effect.createStruct a t)) = l := by
  induction l with
  | nil => rfl
  | cons a l ih => simpa [typedAddrs] using congrArg (List.cons a) ih

lemma clBuffWalk_covers (env : GhidraEnv) (start : Int) :
    ∀ (rest : List Int) (fuel : Nat) (cur : Int),
      rest.length + 1 < fuel →
      (∀ a ∈ cur :: rest, env.inProgram a = true) →
      List.Chain' (fun a b => env.getInt a = b) (cur :: rest) →
      (∀ a ∈ rest, a ≠ start) →
      (env.getInt ((cur :: rest).getLast (List.cons_ne_nil _ _)) = start ∨
        env.inProgram (env.getInt ((cur :: rest).getLast (List.cons_ne_nil _ _))) = false) →
      clBuffWalk env start fuel cur =
        ((cur :: rest).map (fun a => Effect.createStruct a VxStruct.clBuff), true) := by
  intro rest
  induction rest with
  | nil =>
    intro fuel cur hfuel hmem hchain htail hlast
    match fuel, hfuel with
    | f + 1, _ =>
      rw [clBuffWalk, if_pos (hmem cur (by simp))]
      dsimp only
      rw [create_struct, if_pos (hmem cur (by simp))]
      simp only [List.getLast_singleton] at hlast
      rcases hlast with h | h
      · rw [if_pos h]
        simp
      · by_cases hnx : env.getInt cur = start
        · rw [if_pos hnx]
          simp
        · rw [if_neg hnx]
          match f, (by omega : 0 < f) with
          | f' + 1, _ =>
            rw [clBuffWalk, if_neg (by simp [h])]
            simp
  | cons b rs ih =>
    intro fuel cur hfuel hmem hchain htail hlast
    match fuel, hfuel with
    | f + 1, hf =>
      rw [clBuffWalk, if_pos (hmem cur (by simp))]
      dsimp only
      rw [create_struct, if_pos (hmem cur (by simp))]
      have hcb : env.getInt cur = b := (List.chain'_cons.mp hchain).1
      have hbne : b ≠ start := htail b (by simp)
      rw [hcb, if_neg hbne]
      have hlast2 : env.getInt ((b :: rs).getLast (List.cons_ne_nil _ _)) = start ∨
          env.inProgram (env.getInt ((b :: rs).getLast (List.cons_ne_nil _ _))) = false := by
        rwa [List.getLast_cons (List.cons_ne_nil _ _)] at hlast
      have hflen : rs.length + 1 < f := by
        simp only [List.length_cons] at hf
        omega
      have hrec := ih f b hflen
        (fun a ha => hmem a (by simp at ha ⊢; tauto))
        (List.chain'_cons.mp hchain).2
        (fun a ha => htail a (by simp [ha]))
        hlast2
      rw [hrec]
      simp

/-- C8: for every starting buffer address whose forward-link chain is a
simple cycle returning to the start (including the single self-referencing
node), and likewise whenever the final followed link instead leaves the known
address space, `fix_cl_buff_chain` terminates (one fuel unit more than the
chain length reaches a `return`) and types each address at most once, each of
them an address of the chain. -/
theorem fix_cl_buff_chain_cycle (env : GhidraEnv) (start : Int) (rest : List Int)
    (hnd : (start :: rest).Nodup)
    (hmem : ∀ a ∈ start :: rest, env.inProgram a = true)
    (hchain : List.Chain' (fun a b => env.getInt a = b) (start :: rest))
    (hclose : env.getInt ((start :: rest).getLast (List.cons_ne_nil _ _)) = start ∨
      env.inProgram (env.getInt ((start :: rest).getLast (List.cons_ne_nil _ _))) = false) :
    (fix_cl_buff_chain env ((start :: rest).length + 1) 5 start).2 = true ∧
      (typedAddrs (fix_cl_buff_chain env ((start :: rest).length + 1) 5 start).1).Nodup ∧
      ∀ a ∈ typedAddrs (fix_cl_buff_chain env ((start :: rest).length + 1) 5 start).1,
        a ∈ start :: rest := by
  by_cases h0 : start = 0
  · rw [fix_cl_buff_chain, if_pos rfl, if_pos h0]
    simp [typedAddrs]
  · have htail : ∀ a ∈ rest, a ≠ start := by
      intro a ha hcon
      exact (List.nodup_cons.mp hnd).1 (hcon ▸ ha)
    have hw := clBuffWalk_covers env start rest ((start :: rest).length + 1) start
      (by simp) hmem hchain htail hclose
    rw [fix_cl_buff_chain, if_pos rfl, if_neg h0, hw]
    rw [typedAddrs_map_createStruct]
    exact ⟨rfl, hnd, fun a ha => ha⟩

theorem fix_cl_buff_chain_cycle_witness :
    (fix_cl_buff_chain envC8 ((100 :: ([] : List Int)).length + 1) 5 100).2 = true ∧
      (typedAddrs (fix_cl_buff_chain envC8 ((100 :: ([] : List Int)).length + 1) 5 100).1).Nodup :=
  ⟨(fix_cl_buff_chain_cycle envC8 100 [] (by decide) (by decide) (by simp) (Or.inl rfl)).1,
   (fix_cl_buff_chain_cycle envC8 100 [] (by decide) (by decide) (by simp) (Or.inl rfl)).2.1⟩

/-- C9 (counterexample): for version 6, `fix_netpool` does not return an
absent result — the Python dict is returned unconditionally, so the caller
receives a skeleton record carrying the descriptor address. -/
theorem fix_netpool_v6_returns_record :
    (fix_netpool envTriv 0 6 5).2 =
      some { pool_addr := 5, pool_table_addr := none, pool_status_addr := none,
             pool_func_tbl_addr := none, cl_pool_info := [] } ∧
      (fix_netpool envTriv 0 6 5).2 ≠ none := by
  decide

/-- C9 (amended): for version selectors 6 and 7, every kernel object walker
performs no typing or annotation; the cluster-pool walker, buffer-chain
walker and task-control-block walker return an absent result, while the
net-pool walker returns a skeleton record with only the descriptor address
set (not an absent result). -/
theorem walkers_v67_no_effects (env : GhidraEnv) (fuel : Nat) (v : Nat) (addr : Int)
    (hv : v = 6 ∨ v = 7) :
    fix_cl_buff_chain env fuel v addr = ([], true) ∧
      fix_clpool env fuel v addr = ([], none) ∧
      fix_tcb env v addr = ([], none) ∧
      fix_netpool env fuel v addr =
        ([], some { pool_addr := addr, pool_table_addr := none, pool_status_addr := none,
                    pool_func_tbl_addr := none, cl_pool_info := [] }) := by
  have h5 : ¬v = 5 := by rcases hv with h | h <;> omega
  exact ⟨by rw [fix_cl_buff_chain, if_neg h5],
         by rw [fix_clpool, if_neg h5],
         by rw [fix_tcb, if_neg h5],
         by rw [fix_netpool, if_neg h5]⟩

theorem walkers_v67_no_effects_witness :
    fix_netpool envTriv 0 7 0 =
      ([], some { pool_addr := 0, pool_table_addr := none, pool_status_addr := none,
                  pool_func_tbl_addr := none, cl_pool_info := [] }) :=
  (walkers_v67_no_effects envTriv 0 7 0 (Or.inr rfl)).2.2.2

/-- C10: for every V5 net-pool descriptor address, the record returned by
`fix_netpool` stores the embedded cluster-pool table address (descriptor base
plus 0x24) in its `pool_status_addr` field — the same value as
`pool_table_addr` — and not the pool-status record address read from the
descriptor's status pointer field at offset 0x50; the located pool-status
record's address is typed (its `create_struct` effects appear in the walk)
but does not appear in the `pool_status_addr` field whenever it differs from
the table address. -/
theorem fix_netpool_status_addr (env : GhidraEnv) (fuel : Nat) (addr : Int)
    (hne : env.getInt (addr + 0x50) ≠ addr + 0x24) :
    ∃ info pre post,
      (fix_netpool env fuel 5 addr).2 = some info ∧
      info.pool_table_addr = some (addr + 0x24) ∧
      info.pool_status_addr = some (addr + 0x24) ∧
      info.pool_status_addr ≠ some (env.getInt (addr + 0x50)) ∧
      (fix_netpool env fuel 5 addr).1 =
        pre ++ create_struct env (env.getInt (addr + 0x50)) VxStruct.poolStat ++ post := by
  refine ⟨{ pool_addr := addr
            pool_table_addr := some (addr + 0x24)
            pool_status_addr := some (addr + 0x24)
            pool_func_tbl_addr := some (env.getInt (addr + 0x54))
            cl_pool_info := (netpoolLoop env fuel (addr + 0x24) env.clTblSize 0).2 },
          create_struct env addr .netPool ++
            (netpoolLoop env fuel (addr + 0x24) env.clTblSize 0).1,
          fix_pool_func_tbl env 5 (env.getInt (addr + 0x54)), ?_, rfl, rfl, ?_, ?_⟩
  · rw [fix_netpool, if_pos rfl]
  · simp only [ne_eq, Option.some.injEq]
    omega
  · rw [fix_netpool, if_pos rfl]

theorem fix_netpool_status_addr_witness :
    (envTriv.getInt ((0 : Int) + 0x50) ≠ (0 : Int) + 0x24) ∧
      ∃ info pre post,
        (fix_netpool envTriv 0 5 0).2 = some info ∧
        info.pool_table_addr = some ((0 : Int) + 0x24) ∧
        info.pool_status_addr = some ((0 : Int) + 0x24) ∧
        info.pool_status_addr ≠ some (envTriv.getInt ((0 : Int) + 0x50)) ∧
        (fix_netpool envTriv 0 5 0).1 =
          pre ++ create_struct envTriv (envTriv.getInt ((0 : Int) + 0x50))
            VxStruct.poolStat ++ post :=
  ⟨by decide, fix_netpool_status_addr envTriv 0 0 (by decide)⟩

end VxHunter
